import Mathlib

/-!
Verification of the `data_model` crate (src/server-next/data_model/src/lib.rs).

Strings are modelled at the byte level: a Rust `String` is a `ByteStr`
(a list of byte values), `format!` concatenation is list append, and the
`'_'` separator is byte 95.  Rust's `std::hash::DefaultHasher` is
SipHash-1-3 with both keys zero; a `Hasher` accumulates the byte stream
written to it (`<str as Hash>::hash` writes the UTF-8 bytes followed by a
single 0xff marker byte) and `finish` runs SipHash-1-3 over the stream.
`u64` arithmetic is `Nat` reduced modulo `2 ^ 64`.
-/

namespace DataModel

/-- A Rust `String` / `Vec<u8>` viewed as its byte values. -/
abbrev ByteStr := List Nat

/-- Bytes of an ASCII string literal (code point = byte for ASCII). -/
def strBytes (s : String) : ByteStr :=
  s.data.map Char.toNat

/-- The byte value of the `'_'` separator. -/
def usep : Nat := 95

/- ## SipHash-1-3 (Rust `DefaultHasher`, keys 0,0) -/

/-- `u64` addition: wraps modulo `2 ^ 64`. -/
def add64 (x y : Nat) : Nat := (x + y) % 2 ^ 64

/-- `u64` xor. -/
def xor64 (x y : Nat) : Nat := x ^^^ y

/-- `u64::rotate_left`: `(x << r) | (x >> (64 - r))` truncated to 64 bits. -/
def rotl64 (x r : Nat) : Nat := ((x <<< r) ||| (x >>> (64 - r))) % 2 ^ 64

/-- The four 64-bit words of the SipHash internal state. -/
structure SipState where
  v0 : Nat
  v1 : Nat
  v2 : Nat
  v3 : Nat

/-- One SIPROUND of the SipHash reference algorithm. -/
def sipRound (s : SipState) : SipState :=
  let v0 := add64 s.v0 s.v1
  let v1 := rotl64 s.v1 13
  let v1 := xor64 v1 v0
  let v0 := rotl64 v0 32
  let v2 := add64 s.v2 s.v3
  let v3 := rotl64 s.v3 16
  let v3 := xor64 v3 v2
  let v0 := add64 v0 v3
  let v3 := rotl64 v3 21
  let v3 := xor64 v3 v0
  let v2 := add64 v2 v1
  let v1 := rotl64 v1 17
  let v1 := xor64 v1 v2
  let v2 := rotl64 v2 32
  ⟨v0, v1, v2, v3⟩

/-- Absorb one 64-bit message word: `v3 ^= m`, one round (c = 1), `v0 ^= m`. -/
def sipCompress (s : SipState) (m : Nat) : SipState :=
  let s1 : SipState := ⟨s.v0, s.v1, s.v2, xor64 s.v3 m⟩
  let s2 := sipRound s1
  ⟨xor64 s2.v0 m, s2.v1, s2.v2, s2.v3⟩

/-- Little-endian value of up to 7 tail bytes.  The final `% 2 ^ 64` is a
no-op when every element is a byte (< 256), mirroring that Rust assembles
these bytes into a `u64`. -/
def leTail : List Nat → Nat
  | [] => 0
  | b :: bs => (b + 256 * leTail bs) % 2 ^ 64

/-- Little-endian `u64` from 8 bytes, truncated to 64 bits (a no-op for
genuine byte values). -/
def leWord (b0 b1 b2 b3 b4 b5 b6 b7 : Nat) : Nat :=
  (b0 + b1 * 2 ^ 8 + b2 * 2 ^ 16 + b3 * 2 ^ 24 + b4 * 2 ^ 32 + b5 * 2 ^ 40 +
    b6 * 2 ^ 48 + b7 * 2 ^ 56) % 2 ^ 64

/-- Absorb all complete 8-byte blocks of the stream (little-endian words);
return the state together with the final block word
`((len & 0xff) << 56) | LE(tail bytes)`. -/
def sipBlocks (s : SipState) (len : Nat) : List Nat → SipState × Nat
  | b0 :: b1 :: b2 :: b3 :: b4 :: b5 :: b6 :: b7 :: rest =>
    sipBlocks (sipCompress s (leWord b0 b1 b2 b3 b4 b5 b6 b7)) len rest
  | rest => (s, ((len % 256) <<< 56 ||| leTail rest) % 2 ^ 64)

/-- SipHash finalisation: absorb the final block word, `v2 ^= 0xff`,
three rounds (d = 3), xor the four state words. -/
def sipFinish (s : SipState) (b : Nat) : Nat :=
  let s1 := sipCompress s b
  let s2 : SipState := ⟨s1.v0, s1.v1, xor64 s1.v2 255, s1.v3⟩
  let s3 := sipRound (sipRound (sipRound s2))
  xor64 (xor64 s3.v0 s3.v1) (xor64 s3.v2 s3.v3)

/-- SipHash-1-3 of a byte stream with both keys zero: exactly what
`DefaultHasher::new()` followed by `write`s and `finish()` computes.
The initial words are the SipHash constants (xor with key 0 is identity). -/
def siphash13 (stream : List Nat) : Nat :=
  let s0 : SipState :=
    ⟨0x736f6d6570736575, 0x646f72616e646f6d, 0x6c7967656e657261, 0x7465646279746573⟩
  let sb := sipBlocks s0 stream.length stream
  sipFinish sb.1 sb.2

/-- A `DefaultHasher` in flight: the byte stream written so far.
`finish` is a pure function of this stream, so buffering granularity is
irrelevant. -/
structure Hasher where
  stream : List Nat

/-- `DefaultHasher::new()`. -/
def Hasher.new : Hasher := ⟨[]⟩

/-- `<String as Hash>::hash`: write the UTF-8 bytes, then the 0xff
length-prefix-free terminator byte. -/
def Hasher.hashStr (h : Hasher) (s : ByteStr) : Hasher :=
  ⟨h.stream ++ s ++ [255]⟩

/-- `Hasher::finish()`. -/
def Hasher.finish (h : Hasher) : Nat := siphash13 h.stream

/-- The 64-bit hash of a sequence of string fields hashed in order into one
fresh `DefaultHasher` (each field contributes its bytes plus the 0xff
marker). -/
def hashFields (fields : List ByteStr) : Nat :=
  siphash13 ((fields.map (fun f => f ++ [255])).flatten)

/- ## Decimal / lowercase-hex rendering (`{}` on u128, `{:x}` on u64) -/

/-- Byte of the lowercase digit for `n < 16` (0-9 then a-f). -/
def digitByte (n : Nat) : Nat := if n < 10 then 48 + n else 87 + n

/-- Fuel-driven most-significant-first digit accumulation in base `b`. -/
def digitsCore (b : Nat) : Nat → Nat → List Nat → List Nat
  | 0, _, acc => acc
  | fuel + 1, n, acc =>
    if n < b then digitByte n :: acc
    else digitsCore b fuel (n / b) (digitByte (n % b) :: acc)

/-- Bytes of `format!("{:x}", n)`: lowercase hex, no padding, `"0"` for 0. -/
def hexBytes (n : Nat) : ByteStr := digitsCore 16 (n + 1) n []

/-- Bytes of `format!("{}", n)`: decimal, `"0"` for 0. -/
def decBytes (n : Nat) : ByteStr := digitsCore 10 (n + 1) n []

/- ## List utilities mirroring slice operations -/

/-- `Iterator::position`: index of the first element satisfying `p`. -/
def position (p : Nat → Bool) : List Nat → Option Nat
  | [] => none
  | x :: xs => if p x then some 0 else (position p xs).map (· + 1)

/-- Number of occurrences of the `'_'` byte in a byte string. -/
def count95 : List Nat → Nat
  | [] => 0
  | x :: xs => (if x = 95 then 1 else 0) + count95 xs

/-- Whether `pre` is an initial segment of `l`. -/
def startsWithB : List Nat → List Nat → Bool
  | [], _ => true
  | _ :: _, [] => false
  | x :: xs, y :: ys => x == y && startsWithB xs ys

/-- Whether `needle` occurs contiguously inside `hay`. -/
def hasSub (hay needle : List Nat) : Bool :=
  match hay with
  | [] => startsWithB needle []
  | _ :: t => startsWithB needle hay || hasSub t needle

/- ## Entities of the data model -/

/-- `ExecutorId(String)` newtype. -/
structure ExecutorId where
  val : ByteStr

/-- `TaskId(String)` newtype (kept as its byte string). -/
abbrev TaskId := ByteStr

/-- `DataPayload { path, size, sha256_hash }`. -/
structure DataPayload where
  path : ByteStr
  size : Nat
  sha256_hash : ByteStr

/-- `DataObject { id, namespace, compute_graph_name, compute_fn_name, payload }`. -/
structure DataObject where
  id : ByteStr
  «namespace» : ByteStr
  compute_graph_name : ByteStr
  compute_fn_name : ByteStr
  payload : DataPayload

/-- `DataObject::ingestion_object_key`: hash (namespace, compute_graph_name,
payload.sha256_hash, payload.path) into a fresh hasher, format
`"{namespace}_{compute_graph_name}_{hex}"`. -/
def DataObject.ingestion_object_key (d : DataObject) : ByteStr :=
  let hasher := Hasher.new
  let hasher := hasher.hashStr d.«namespace»
  let hasher := hasher.hashStr d.compute_graph_name
  let hasher := hasher.hashStr d.payload.sha256_hash
  let hasher := hasher.hashStr d.payload.path
  let id := hexBytes hasher.finish
  d.«namespace» ++ 95 :: (d.compute_graph_name ++ 95 :: id)

/-- `DataObject::fn_output_key`: additionally hashes `compute_fn_name` and the
ingestion object id, format
`"{namespace}_{compute_graph_name}_{ingestion_object_id}_{compute_fn_name}_{hex}"`. -/
def DataObject.fn_output_key (d : DataObject) (ingestion_object_id : ByteStr) : ByteStr :=
  let hasher := Hasher.new
  let hasher := hasher.hashStr d.«namespace»
  let hasher := hasher.hashStr d.compute_graph_name
  let hasher := hasher.hashStr d.compute_fn_name
  let hasher := hasher.hashStr d.payload.sha256_hash
  let hasher := hasher.hashStr d.payload.path
  let hasher := hasher.hashStr ingestion_object_id
  let id := hexBytes hasher.finish
  d.«namespace» ++ 95 :: (d.compute_graph_name ++ 95 :: (ingestion_object_id ++ 95 ::
    (d.compute_fn_name ++ 95 :: id)))

/-- `Option::ok_or(anyhow!(msg))?` on a builder field. -/
def orErr {α : Type} (o : Option α) (msg : ByteStr) : Except ByteStr α :=
  match o with
  | some a => .ok a
  | none => .error msg

/-- The `derive_builder` state for `DataObject` (every struct field gets an
optional slot; the custom `build` ignores the `id` slot). -/
structure DataObjectBuilder where
  id : Option ByteStr := none
  «namespace» : Option ByteStr := none
  compute_graph_name : Option ByteStr := none
  compute_fn_name : Option ByteStr := none
  payload : Option DataPayload := none

/-- `DataObjectBuilder::build`: require namespace, compute_graph_name,
compute_fn_name and payload; derive `id` by hashing (ns, cg, fn,
payload.sha256_hash, payload.path) in order. -/
def DataObjectBuilder.build (b : DataObjectBuilder) : Except ByteStr DataObject := do
  let ns ← orErr b.«namespace» (strBytes ("namespace is required"))
  let cg_name ← orErr b.compute_graph_name (strBytes ("compute_graph_name is required"))
  let fn_name ← orErr b.compute_fn_name (strBytes ("compute_fn_name is required"))
  let payload ← orErr b.payload (strBytes ("payload is required"))
  let hasher := Hasher.new
  let hasher := hasher.hashStr ns
  let hasher := hasher.hashStr cg_name
  let hasher := hasher.hashStr fn_name
  let hasher := hasher.hashStr payload.sha256_hash
  let hasher := hasher.hashStr payload.path
  let id := hexBytes hasher.finish
  .ok ⟨id, ns, cg_name, fn_name, payload⟩

/-- Per-function task counters (`u64` fields). -/
structure TaskAnalytics where
  pending_tasks : Nat
  successful_tasks : Nat
  failed_tasks : Nat

/-- `GraphInvocationCtx { namespace, compute_graph_name, invocation_id,
fn_task_analytics }` (the `HashMap` modelled as an association list). -/
structure GraphInvocationCtx where
  «namespace» : ByteStr
  compute_graph_name : ByteStr
  invocation_id : ByteStr
  fn_task_analytics : List (ByteStr × TaskAnalytics)

/-- `GraphInvocationCtx::key`: `"{namespace}_{compute_graph_name}_{invocation_id}"`. -/
def GraphInvocationCtx.key (c : GraphInvocationCtx) : ByteStr :=
  c.«namespace» ++ 95 :: (c.compute_graph_name ++ 95 :: c.invocation_id)

/-- Builder state for `GraphInvocationCtx`. -/
structure GraphInvocationCtxBuilder where
  «namespace» : Option ByteStr := none
  compute_graph_name : Option ByteStr := none
  invocation_id : Option ByteStr := none
  fn_task_analytics : Option (List (ByteStr × TaskAnalytics)) := none

/-- `GraphInvocationCtxBuilder::build`: requires namespace,
compute_graph_name and invocation_id (the latter's error message says
`"ingested_data_object_id is required"`); always installs a fresh empty
`fn_task_analytics` map. -/
def GraphInvocationCtxBuilder.build (b : GraphInvocationCtxBuilder) :
    Except ByteStr GraphInvocationCtx := do
  let ns ← orErr b.«namespace» (strBytes ("namespace is required"))
  let cg_name ← orErr b.compute_graph_name (strBytes ("compute_graph_name is required"))
  let invocation_id ← orErr b.invocation_id (strBytes ("ingested_data_object_id is required"))
  .ok ⟨ns, cg_name, invocation_id, []⟩

/-- `TaskOutcome`: `Unknown | Success | Failure`. -/
inductive TaskOutcome where
  | Unknown
  | Success
  | Failure

/-- `Task`.  `creation_time` is a `SystemTime` modelled as signed
nanoseconds relative to `UNIX_EPOCH` (a `SystemTime` may lie before the
epoch, hence `Int`). -/
structure Task where
  id : TaskId
  «namespace» : ByteStr
  compute_fn_name : ByteStr
  compute_graph_name : ByteStr
  invocation_id : ByteStr
  input_data_id : ByteStr
  outcome : TaskOutcome
  creation_time : Int

/-- `Task::terminal_state`: `outcome != Unknown`. -/
def Task.terminal_state (t : Task) : Bool :=
  match t.outcome with
  | .Unknown => false
  | _ => true

/-- `Task::key`:
`"{namespace}_{compute_graph_name}_{invocation_id}_{compute_fn_name}_{id}"`. -/
def Task.key (t : Task) : ByteStr :=
  t.«namespace» ++ 95 :: (t.compute_graph_name ++ 95 :: (t.invocation_id ++ 95 ::
    (t.compute_fn_name ++ 95 :: t.id)))

/-- `SystemTime::duration_since(UNIX_EPOCH)` as (whole seconds, subsecond
nanoseconds); `none` is the `Err` case (time before the epoch), on which the
source calls `.unwrap()` and panics. -/
def durationSinceEpoch (t : Int) : Option (Nat × Nat) :=
  if 0 ≤ t then some (t.toNat / 1000000000, t.toNat % 1000000000) else none

/-- `Task::make_allocation_key`:
`"{executor_id}_{secs * 1e9 + subsec_nanos}_{task_key}"`.  `none` models
the panic of `.duration_since(UNIX_EPOCH).unwrap()` on a pre-epoch
`creation_time`.  `secs` and `nsecs` are `u128` in the source; the values
stay far below `2 ^ 128`, so plain `Nat` arithmetic is exact. -/
def Task.make_allocation_key (t : Task) (executor_id : ExecutorId) : Option ByteStr :=
  match durationSinceEpoch t.creation_time with
  | none => none
  | some (secs, subsec_nanos) =>
    let nsecs := secs * 1000000000 + subsec_nanos
    some (executor_id.val ++ 95 :: (decBytes nsecs ++ 95 :: t.key))

/-- `Task::key_from_executor_key`: find the first `'_'`, find the next `'_'`
after it, return everything after that second `'_'`; otherwise the
`"invalid executor key"` error. -/
def Task.key_from_executor_key (executor_key : List Nat) : Except ByteStr (List Nat) :=
  match position (fun x => x == 95) executor_key with
  | none => .error (strBytes ("invalid executor key"))
  | some pos_1 =>
    match position (fun x => x == 95) (executor_key.drop (pos_1 + 1)) with
    | none => .error (strBytes ("invalid executor key"))
    | some pos_2 => .ok (executor_key.drop (pos_1 + 1 + pos_2 + 1))

/-- Builder state for `Task`. -/
structure TaskBuilder where
  id : Option TaskId := none
  «namespace» : Option ByteStr := none
  compute_fn_name : Option ByteStr := none
  compute_graph_name : Option ByteStr := none
  invocation_id : Option ByteStr := none
  input_data_id : Option ByteStr := none
  outcome : Option TaskOutcome := none
  creation_time : Option Int := none

/-- `TaskBuilder::build`: requires namespace, compute_graph_name,
compute_fn_name, input_data_id and invocation_id (with the error messages of
the source, two of which misname their field); hashes
(compute_graph_name, compute_fn_name, input_data_id, invocation_id,
namespace) in that order for the id; sets outcome `Unknown` and
`creation_time` to `SystemTime::now()`, passed here as `now`. -/
def TaskBuilder.build (b : TaskBuilder) (now : Int) : Except ByteStr Task := do
  let ns ← orErr b.«namespace» (strBytes ("namespace is not present"))
  let cg_name ← orErr b.compute_graph_name (strBytes ("compute graph name is not present"))
  let compute_fn_name ← orErr b.compute_fn_name (strBytes ("compute fn name is not present"))
  let input_data_id ← orErr b.input_data_id (strBytes ("input data object id is not present"))
  let invocation_id ← orErr b.invocation_id (strBytes ("ingestion data object id is not present"))
  let hasher := Hasher.new
  let hasher := hasher.hashStr cg_name
  let hasher := hasher.hashStr compute_fn_name
  let hasher := hasher.hashStr input_data_id
  let hasher := hasher.hashStr invocation_id
  let hasher := hasher.hashStr ns
  let id := hexBytes hasher.finish
  .ok ⟨id, ns, compute_fn_name, cg_name, invocation_id, input_data_id, .Unknown, now⟩

/- ## TaskAnalytics operations -/

/-- `TaskAnalytics::pending`: `pending_tasks += 1` (`u64` wrapping). -/
def TaskAnalytics.pending (t : TaskAnalytics) : TaskAnalytics :=
  { t with pending_tasks := (t.pending_tasks + 1) % 2 ^ 64 }

/-- `TaskAnalytics::success`: `successful_tasks += 1`; decrement
`pending_tasks` only if it is currently positive. -/
def TaskAnalytics.success (t : TaskAnalytics) : TaskAnalytics :=
  let t1 := { t with successful_tasks := (t.successful_tasks + 1) % 2 ^ 64 }
  if 0 < t1.pending_tasks then { t1 with pending_tasks := t1.pending_tasks - 1 } else t1

/-- `TaskAnalytics::fail`: `failed_tasks += 1`; decrement `pending_tasks`
only if it is currently positive. -/
def TaskAnalytics.fail (t : TaskAnalytics) : TaskAnalytics :=
  let t1 := { t with failed_tasks := (t.failed_tasks + 1) % 2 ^ 64 }
  if 0 < t1.pending_tasks then { t1 with pending_tasks := t1.pending_tasks - 1 } else t1

/-- One call against a `TaskAnalytics` value. -/
inductive AnalyticsOp where
  | pending
  | success
  | fail

/-- Apply one call. -/
def applyOp (t : TaskAnalytics) : AnalyticsOp → TaskAnalytics
  | .pending => t.pending
  | .success => t.success
  | .fail => t.fail

/-- Run a finite sequence of calls left to right. -/
def runOps (t : TaskAnalytics) : List AnalyticsOp → TaskAnalytics
  | [] => t
  | op :: ops => runOps (applyOp t op) ops

/-- All three counters are representable `u64` values. -/
def TaskAnalytics.Bounded (t : TaskAnalytics) : Prop :=
  t.pending_tasks < 2 ^ 64 ∧ t.successful_tasks < 2 ^ 64 ∧ t.failed_tasks < 2 ^ 64

/- ## StateChangeId -/

/-- `StateChangeId(u64)` newtype (the `Nat` value is meant to be `< 2 ^ 64`). -/
structure StateChangeId where
  val : Nat

/-- Big-endian bytes of `n`, `k` bytes wide, most significant first
(each byte extracted exactly as `to_be_bytes` does). -/
def toBEBytes : Nat → Nat → List Nat
  | 0, _ => []
  | k + 1, n => (n / 256 ^ k) % 256 :: toBEBytes k (n % 256 ^ k)

/-- `u64::from_be_bytes`. -/
def fromBEBytes (l : List Nat) : Nat :=
  l.foldl (fun acc b => acc * 256 + b) 0

/-- `StateChangeId::to_key`: `self.0.to_be_bytes()` (8 bytes). -/
def StateChangeId.to_key (s : StateChangeId) : List Nat :=
  toBEBytes 8 s.val

/-- `StateChangeId::from_key`: `u64::from_be_bytes(key)`. -/
def StateChangeId.from_key (key : List Nat) : StateChangeId :=
  ⟨fromBEBytes key⟩

/-- Byte-lexicographic strict order on byte strings. -/
def bytesLt : List Nat → List Nat → Bool
  | [], [] => false
  | [], _ :: _ => true
  | _ :: _, [] => false
  | a :: as, b :: bs => a < b || (a == b && bytesLt as bs)

/- ## Hasher chain lemmas -/

/-- Hash a list of string fields in order into an existing hasher. -/
def hashChain (h : Hasher) (fs : List ByteStr) : Hasher :=
  fs.foldl Hasher.hashStr h

lemma hashChain_stream (fs : List ByteStr) (h : Hasher) :
    (hashChain h fs).stream = h.stream ++ (fs.map (fun f => f ++ [255])).flatten := by
  induction fs generalizing h with
  | nil => simp [hashChain]
  | cons f fs ih =>
    simp only [hashChain, List.foldl_cons, List.map_cons, List.flatten_cons]
    rw [show List.foldl Hasher.hashStr (h.hashStr f) fs = hashChain (h.hashStr f) fs from rfl]
    rw [ih]
    simp [Hasher.hashStr, List.append_assoc]

lemma finish_hashChain (fs : List ByteStr) :
    (hashChain Hasher.new fs).finish = hashFields fs := by
  unfold Hasher.finish hashFields
  rw [hashChain_stream]
  simp [Hasher.new]

/- ## Claim theorems -/

/-- Claim C1: `TaskBuilder::build` derives the task id as the lowercase hex
encoding of the 64-bit `DefaultHasher` hash of exactly
(compute_graph_name, compute_fn_name, input_data_id, invocation_id,
namespace), hashed in that order, independently of every other builder slot
and of the creation time, so two builds from equal tuples yield the same
id. -/
theorem taskBuilder_id_spec (ns cg fn inp inv : ByteStr) (idf : Option TaskId)
    (outf : Option TaskOutcome) (ctf : Option Int) (now1 now2 : Int) :
    (TaskBuilder.build ⟨idf, some ns, some fn, some cg, some inv, some inp, outf, ctf⟩ now1).map
        Task.id = .ok (hexBytes (hashFields [cg, fn, inp, inv, ns])) ∧
    (TaskBuilder.build ⟨idf, some ns, some fn, some cg, some inv, some inp, outf, ctf⟩ now1).map
        Task.id =
      (TaskBuilder.build ⟨idf, some ns, some fn, some cg, some inv, some inp, outf, ctf⟩ now2).map
        Task.id := by
  have hb : ∀ now : Int,
      TaskBuilder.build ⟨idf, some ns, some fn, some cg, some inv, some inp, outf, ctf⟩ now =
        .ok ⟨hexBytes (hashChain Hasher.new [cg, fn, inp, inv, ns]).finish,
          ns, fn, cg, inv, inp, .Unknown, now⟩ := by
    intro now
    rfl
  rw [hb now1, hb now2, finish_hashChain]
  exact ⟨rfl, rfl⟩

/-- Claim C7: `ingestion_object_key` is
`"{namespace}_{compute_graph_name}_{hex(hash(ns, cg, sha256, path))}"`
(the hash does not fold in `compute_fn_name`), and `fn_output_key` is
`"{namespace}_{compute_graph_name}_{ingestion_key}_{compute_fn_name}_{hex(hash(ns, cg, fn, sha256, path, ingestion_key))}"`. -/
theorem dataObject_key_formats (d : DataObject) (ing : ByteStr) :
    d.ingestion_object_key =
      d.«namespace» ++ 95 :: (d.compute_graph_name ++ 95 ::
        hexBytes (hashFields [d.«namespace», d.compute_graph_name,
          d.payload.sha256_hash, d.payload.path])) ∧
    d.fn_output_key ing =
      d.«namespace» ++ 95 :: (d.compute_graph_name ++ 95 :: (ing ++ 95 ::
        (d.compute_fn_name ++ 95 ::
          hexBytes (hashFields [d.«namespace», d.compute_graph_name, d.compute_fn_name,
            d.payload.sha256_hash, d.payload.path, ing])))) := by
  constructor
  · show d.«namespace» ++ 95 :: (d.compute_graph_name ++ 95 ::
        hexBytes (hashChain Hasher.new [d.«namespace», d.compute_graph_name,
          d.payload.sha256_hash, d.payload.path]).finish) = _
    rw [finish_hashChain]
  · show d.«namespace» ++ 95 :: (d.compute_graph_name ++ 95 :: (ing ++ 95 ::
        (d.compute_fn_name ++ 95 ::
          hexBytes (hashChain Hasher.new [d.«namespace», d.compute_graph_name,
            d.compute_fn_name, d.payload.sha256_hash, d.payload.path, ing]).finish))) = _
    rw [finish_hashChain]

/-- Claim C6 (amended): the derived `DataObject` id is the lowercase hex of
the hash of (namespace, compute_graph_name, compute_fn_name,
payload.sha256_hash, payload.path) — a pure function of those five values,
regardless of `payload.size` and of any builder-supplied `id` slot, so two
builds agreeing on them yield identical ids. -/
theorem dataObject_id_spec (ns cg fn path sha : ByteStr) (idf1 idf2 : Option ByteStr)
    (size1 size2 : Nat) :
    (DataObjectBuilder.build ⟨idf1, some ns, some cg, some fn, some ⟨path, size1, sha⟩⟩).map
        DataObject.id = .ok (hexBytes (hashFields [ns, cg, fn, sha, path])) ∧
    (DataObjectBuilder.build ⟨idf1, some ns, some cg, some fn, some ⟨path, size1, sha⟩⟩).map
        DataObject.id =
      (DataObjectBuilder.build ⟨idf2, some ns, some cg, some fn, some ⟨path, size2, sha⟩⟩).map
        DataObject.id := by
  have hb : ∀ (idf : Option ByteStr) (size : Nat),
      DataObjectBuilder.build ⟨idf, some ns, some cg, some fn, some ⟨path, size, sha⟩⟩ =
        .ok ⟨hexBytes (hashChain Hasher.new [ns, cg, fn, sha, path]).finish,
          ns, cg, fn, ⟨path, size, sha⟩⟩ := by
    intro idf size
    rfl
  rw [hb idf1 size1, hb idf2 size2, finish_hashChain]
  exact ⟨rfl, rfl⟩

set_option maxRecDepth 20000 in
/-- Claim C6, counterexample: two `DataObjectBuilder::build` calls that agree
on namespace, compute_graph_name and payload (same sha256 and path) but
differ in `compute_fn_name` both succeed yet derive different ids — the id
is not a function of (namespace, graph, payload) alone. -/
theorem dataObject_id_depends_on_fn :
    ((DataObjectBuilder.build ⟨none, some (strBytes ("ns1")), some (strBytes ("g1")),
        some (strBytes ("f1")), some ⟨strBytes ("p1"), 1, strBytes ("s1")⟩⟩).toOption.map
      DataObject.id).isSome = true ∧
    ((DataObjectBuilder.build ⟨none, some (strBytes ("ns1")), some (strBytes ("g1")),
        some (strBytes ("f2")), some ⟨strBytes ("p1"), 1, strBytes ("s1")⟩⟩).toOption.map
      DataObject.id).isSome = true ∧
    (DataObjectBuilder.build ⟨none, some (strBytes ("ns1")), some (strBytes ("g1")),
        some (strBytes ("f1")), some ⟨strBytes ("p1"), 1, strBytes ("s1")⟩⟩).toOption.map
      DataObject.id ≠
    (DataObjectBuilder.build ⟨none, some (strBytes ("ns1")), some (strBytes ("g1")),
        some (strBytes ("f2")), some ⟨strBytes ("p1"), 1, strBytes ("s1")⟩⟩).toOption.map
      DataObject.id := by
  refine ⟨rfl, rfl, ?_⟩
  decide

/-- Claim C10: every successful `GraphInvocationCtxBuilder::build` returns a
context whose `fn_task_analytics` map is empty, whatever (if anything) was
supplied for that slot. -/
theorem graphInvocationCtx_fresh_analytics (b : GraphInvocationCtxBuilder)
    (ctx : GraphInvocationCtx) (h : b.build = .ok ctx) :
    ctx.fn_task_analytics = [] := by
  rcases b with ⟨ns, cg, inv, fta⟩
  cases ns with
  | none => exact Except.noConfusion h
  | some ns =>
    cases cg with
    | none => exact Except.noConfusion h
    | some cg =>
      cases inv with
      | none => exact Except.noConfusion h
      | some inv =>
        have hb : GraphInvocationCtxBuilder.build ⟨some ns, some cg, some inv, fta⟩ =
            .ok ⟨ns, cg, inv, []⟩ := rfl
        rw [hb] at h
        rw [← Except.ok.inj h]

/-- Claim C10, witness: a builder given a non-empty `fn_task_analytics`
value still builds a context with no analytics entries. -/
theorem graphInvocationCtx_fresh_analytics_witness :
    (⟨strBytes ("ns1"), strBytes ("g1"), strBytes ("inv1"), []⟩ : GraphInvocationCtx).fn_task_analytics
      = [] :=
  graphInvocationCtx_fresh_analytics
    ⟨some (strBytes ("ns1")), some (strBytes ("g1")), some (strBytes ("inv1")),
      some [(strBytes ("f1"), ⟨1, 2, 3⟩)]⟩
    ⟨strBytes ("ns1"), strBytes ("g1"), strBytes ("inv1"), []⟩ rfl

/-- Claim C5 (amended): each builder invoked with exactly one required field
unset fails with its distinct fixed error message — those messages name the
missing field except that a missing `invocation_id` is reported as
`"ingested_data_object_id is required"` (`GraphInvocationCtx`) resp.
`"ingestion data object id is not present"` (`Task`), and the `Task`
messages spell field names with spaces (`input_data_id` as
`"input data object id"`).  With all required fields set, each build
returns the complete entity and the derived keys match the documented
formats exactly (namespace `ns1`, graph `g1`, invocation `inv1` give the
`GraphInvocationCtx` key `"ns1_g1_inv1"`). -/
theorem builder_required_fields (ns cg inv inp fn path sha : ByteStr) (size : Nat)
    (fta : Option (List (ByteStr × TaskAnalytics))) (idf : Option ByteStr)
    (idtf : Option TaskId) (outf : Option TaskOutcome) (ctf : Option Int) (now : Int) :
    (GraphInvocationCtxBuilder.build ⟨none, some cg, some inv, fta⟩ =
        .error (strBytes ("namespace is required")) ∧
      GraphInvocationCtxBuilder.build ⟨some ns, none, some inv, fta⟩ =
        .error (strBytes ("compute_graph_name is required")) ∧
      GraphInvocationCtxBuilder.build ⟨some ns, some cg, none, fta⟩ =
        .error (strBytes ("ingested_data_object_id is required")) ∧
      GraphInvocationCtxBuilder.build ⟨some ns, some cg, some inv, fta⟩ =
        .ok ⟨ns, cg, inv, []⟩ ∧
      (GraphInvocationCtxBuilder.build ⟨some ns, some cg, some inv, fta⟩).map
        GraphInvocationCtx.key = .ok (ns ++ 95 :: (cg ++ 95 :: inv)) ∧
      (GraphInvocationCtxBuilder.build
          ⟨some (strBytes ("ns1")), some (strBytes ("g1")), some (strBytes ("inv1")), fta⟩).map
        GraphInvocationCtx.key = .ok (strBytes ("ns1_g1_inv1"))) ∧
    (DataObjectBuilder.build ⟨idf, none, some cg, some fn, some ⟨path, size, sha⟩⟩ =
        .error (strBytes ("namespace is required")) ∧
      DataObjectBuilder.build ⟨idf, some ns, none, some fn, some ⟨path, size, sha⟩⟩ =
        .error (strBytes ("compute_graph_name is required")) ∧
      DataObjectBuilder.build ⟨idf, some ns, some cg, none, some ⟨path, size, sha⟩⟩ =
        .error (strBytes ("compute_fn_name is required")) ∧
      DataObjectBuilder.build ⟨idf, some ns, some cg, some fn, none⟩ =
        .error (strBytes ("payload is required")) ∧
      DataObjectBuilder.build ⟨idf, some ns, some cg, some fn, some ⟨path, size, sha⟩⟩ =
        .ok ⟨hexBytes (hashFields [ns, cg, fn, sha, path]), ns, cg, fn, ⟨path, size, sha⟩⟩) ∧
    (TaskBuilder.build ⟨idtf, none, some fn, some cg, some inv, some inp, outf, ctf⟩ now =
        .error (strBytes ("namespace is not present")) ∧
      TaskBuilder.build ⟨idtf, some ns, some fn, none, some inv, some inp, outf, ctf⟩ now =
        .error (strBytes ("compute graph name is not present")) ∧
      TaskBuilder.build ⟨idtf, some ns, none, some cg, some inv, some inp, outf, ctf⟩ now =
        .error (strBytes ("compute fn name is not present")) ∧
      TaskBuilder.build ⟨idtf, some ns, some fn, some cg, some inv, none, outf, ctf⟩ now =
        .error (strBytes ("input data object id is not present")) ∧
      TaskBuilder.build ⟨idtf, some ns, some fn, some cg, none, some inp, outf, ctf⟩ now =
        .error (strBytes ("ingestion data object id is not present")) ∧
      TaskBuilder.build ⟨idtf, some ns, some fn, some cg, some inv, some inp, outf, ctf⟩ now =
        .ok ⟨hexBytes (hashFields [cg, fn, inp, inv, ns]), ns, fn, cg, inv, inp, .Unknown, now⟩ ∧
      (TaskBuilder.build ⟨idtf, some ns, some fn, some cg, some inv, some inp, outf, ctf⟩
          now).map Task.key =
        .ok (ns ++ 95 :: (cg ++ 95 :: (inv ++ 95 ::
          (fn ++ 95 :: hexBytes (hashFields [cg, fn, inp, inv, ns])))))) := by
  have hd : DataObjectBuilder.build ⟨idf, some ns, some cg, some fn, some ⟨path, size, sha⟩⟩ =
      .ok ⟨hexBytes (hashChain Hasher.new [ns, cg, fn, sha, path]).finish,
        ns, cg, fn, ⟨path, size, sha⟩⟩ := rfl
  have ht : TaskBuilder.build ⟨idtf, some ns, some fn, some cg, some inv, some inp, outf, ctf⟩
      now = .ok ⟨hexBytes (hashChain Hasher.new [cg, fn, inp, inv, ns]).finish,
        ns, fn, cg, inv, inp, .Unknown, now⟩ := rfl
  refine ⟨⟨rfl, rfl, rfl, rfl, rfl, rfl⟩, ⟨rfl, rfl, rfl, rfl, ?_⟩, ⟨rfl, rfl, rfl, rfl, rfl, ?_, ?_⟩⟩
  · rw [hd, finish_hashChain]
  · rw [ht, finish_hashChain]
  · rw [ht, finish_hashChain]
    rfl

/-- Claim C5, counterexample: building a `GraphInvocationCtx` with every
field set except `invocation_id` yields the error
`"ingested_data_object_id is required"`, which does not name the missing
`invocation_id` field. -/
theorem builder_error_misnames_field :
    GraphInvocationCtxBuilder.build
        ⟨some (strBytes ("ns1")), some (strBytes ("g1")), none, none⟩ =
      .error (strBytes ("ingested_data_object_id is required")) ∧
    hasSub (strBytes ("ingested_data_object_id is required")) (strBytes ("invocation_id")) = false := by
  exact ⟨rfl, by decide⟩

/- ## TaskAnalytics lemmas -/

lemma applyOp_bounded (s : TaskAnalytics) (op : AnalyticsOp) (h : s.Bounded) :
    (applyOp s op).Bounded := by
  rcases s with ⟨p, su, f⟩
  rcases h with ⟨hp0, hs0, hf0⟩
  have hp : p < 2 ^ 64 := hp0
  have hs : su < 2 ^ 64 := hs0
  have hf : f < 2 ^ 64 := hf0
  cases op with
  | pending =>
    exact ⟨show (p + 1) % 2 ^ 64 < 2 ^ 64 by omega, hs, hf⟩
  | success =>
    simp only [applyOp, TaskAnalytics.success]
    split
    · exact ⟨show p - 1 < 2 ^ 64 by omega, show (su + 1) % 2 ^ 64 < 2 ^ 64 by omega, hf⟩
    · exact ⟨hp, show (su + 1) % 2 ^ 64 < 2 ^ 64 by omega, hf⟩
  | fail =>
    simp only [applyOp, TaskAnalytics.fail]
    split
    · exact ⟨show p - 1 < 2 ^ 64 by omega, hs, show (f + 1) % 2 ^ 64 < 2 ^ 64 by omega⟩
    · exact ⟨hp, hs, show (f + 1) % 2 ^ 64 < 2 ^ 64 by omega⟩

lemma runOps_bounded (ops : List AnalyticsOp) (s : TaskAnalytics) (h : s.Bounded) :
    (runOps s ops).Bounded := by
  induction ops generalizing s with
  | nil => exact h
  | cons op ops ih => exact ih _ (applyOp_bounded s op h)

/-- Claim C4 (amended): `pending()` adds 1 to `pending_tasks` modulo `2^64`
(an exact increment whenever `pending_tasks + 1 < 2^64`); `success()` /
`fail()` add 1 to their terminal counter modulo `2^64` and decrement
`pending_tasks` exactly when it is positive, leaving it at 0 otherwise (no
panic, no underflow); under any finite sequence of calls every counter stays
a representable `u64` (hence never negative). -/
theorem taskAnalytics_counters (s : TaskAnalytics) (ops : List AnalyticsOp) :
    (s.pending_tasks + 1 < 2 ^ 64 →
      s.pending = ⟨s.pending_tasks + 1, s.successful_tasks, s.failed_tasks⟩) ∧
    s.pending.pending_tasks = (s.pending_tasks + 1) % 2 ^ 64 ∧
    s.success.successful_tasks = (s.successful_tasks + 1) % 2 ^ 64 ∧
    s.fail.failed_tasks = (s.failed_tasks + 1) % 2 ^ 64 ∧
    (0 < s.pending_tasks →
      s.success.pending_tasks = s.pending_tasks - 1 ∧
        s.fail.pending_tasks = s.pending_tasks - 1) ∧
    (s.pending_tasks = 0 → s.success.pending_tasks = 0 ∧ s.fail.pending_tasks = 0) ∧
    s.success.failed_tasks = s.failed_tasks ∧
    s.fail.successful_tasks = s.successful_tasks ∧
    (s.Bounded → (runOps s ops).Bounded) := by
  rcases s with ⟨p, su, f⟩
  refine ⟨?_, ?_, ?_, ?_, ?_, ?_, ?_, ?_, runOps_bounded ops _⟩
  · intro h
    have hlt : (p + 1) % 2 ^ 64 = p + 1 := Nat.mod_eq_of_lt h
    show (⟨(p + 1) % 2 ^ 64, su, f⟩ : TaskAnalytics) = ⟨p + 1, su, f⟩
    rw [hlt]
  · rfl
  · simp only [TaskAnalytics.success]
    split <;> rfl
  · simp only [TaskAnalytics.fail]
    split <;> rfl
  · intro h
    constructor
    · simp only [TaskAnalytics.success]
      split
      · rfl
      · next h2 => exact absurd h h2
    · simp only [TaskAnalytics.fail]
      split
      · rfl
      · next h2 => exact absurd h h2
  · intro h
    have hp0 : p = 0 := h
    subst hp0
    exact ⟨rfl, rfl⟩
  · simp only [TaskAnalytics.success]
    split <;> rfl
  · simp only [TaskAnalytics.fail]
    split <;> rfl

/-- Claim C4, witness: from the state (5, 0, 0), `success()` and `fail()`
decrement the positive pending counter, and a pending/success/fail run
keeps all counters representable. -/
theorem taskAnalytics_counters_witness :
    ((TaskAnalytics.success ⟨5, 0, 0⟩).pending_tasks = 5 - 1 ∧
      (TaskAnalytics.fail ⟨5, 0, 0⟩).pending_tasks = 5 - 1) ∧
    (runOps ⟨5, 0, 0⟩ [.pending, .success, .fail]).Bounded :=
  ⟨(taskAnalytics_counters ⟨5, 0, 0⟩ []).2.2.2.2.1 (by decide),
    (taskAnalytics_counters ⟨5, 0, 0⟩ [.pending, .success, .fail]).2.2.2.2.2.2.2.2
      (by simp [TaskAnalytics.Bounded])⟩

/-- Claim C4, counterexample: at the representable state with
`pending_tasks = 2^64 - 1` (`u64::MAX`), `pending()` does not increment the
counter by 1 — the `u64` addition wraps to 0 (in a debug build it panics),
so the claim's unqualified "increments pending_tasks by 1" fails. -/
theorem taskAnalytics_pending_wraps :
    ¬ (TaskAnalytics.pending ⟨2 ^ 64 - 1, 0, 0⟩).pending_tasks = (2 ^ 64 - 1) + 1 := by
  decide

/- ## Big-endian encoding lemmas -/

lemma toBEBytes_length (k n : Nat) : (toBEBytes k n).length = k := by
  induction k generalizing n with
  | zero => rfl
  | succ k ih => simp [toBEBytes, ih]

lemma toBEBytes_head (k n : Nat) (h : n < 256 ^ (k + 1)) :
    n / 256 ^ k % 256 = n / 256 ^ k := by
  have hd : n / 256 ^ k < 256 := Nat.div_lt_of_lt_mul (by rw [← pow_succ]; exact h)
  exact Nat.mod_eq_of_lt hd

lemma foldl_toBEBytes (k : Nat) : ∀ n acc, n < 256 ^ k →
    (toBEBytes k n).foldl (fun a b => a * 256 + b) acc = acc * 256 ^ k + n := by
  induction k with
  | zero =>
    intro n acc h
    interval_cases n
    simp [toBEBytes, fromBEBytes]
  | succ k ih =>
    intro n acc h
    have hm : n % 256 ^ k < 256 ^ k := Nat.mod_lt _ (by positivity)
    simp only [toBEBytes, List.foldl_cons]
    rw [toBEBytes_head k n h, ih _ _ hm]
    have hdm := Nat.div_add_mod n (256 ^ k)
    ring_nf
    ring_nf at hdm
    omega

/-- The quotient/remainder split of comparing two numbers below `256^(k+1)`
by their top byte and their low `k` bytes. -/
lemma bytesLt_toBEBytes (k : Nat) : ∀ a b, a < 256 ^ k → b < 256 ^ k →
    (bytesLt (toBEBytes k a) (toBEBytes k b) = true ↔ a < b) := by
  induction k with
  | zero =>
    intro a b ha hb
    interval_cases a
    interval_cases b
    simp [toBEBytes, bytesLt]
  | succ k ih =>
    intro a b ha hb
    have hma : a % 256 ^ k < 256 ^ k := Nat.mod_lt _ (by positivity)
    have hmb : b % 256 ^ k < 256 ^ k := Nat.mod_lt _ (by positivity)
    have hda := Nat.div_add_mod a (256 ^ k)
    have hdb := Nat.div_add_mod b (256 ^ k)
    simp only [toBEBytes, bytesLt, toBEBytes_head k a ha, toBEBytes_head k b hb,
      Bool.or_eq_true, Bool.and_eq_true, decide_eq_true_eq, beq_iff_eq]
    rcases Nat.lt_trichotomy (a / 256 ^ k) (b / 256 ^ k) with hlt | heq | hgt
    · have hab : a < b := Nat.lt_of_div_lt_div hlt
      simp [hlt, hab]
    · rw [heq] at hda
      have : a % 256 ^ k < b % 256 ^ k ↔ a < b := by omega
      rw [ih _ _ hma hmb, this, heq]
      simp [Nat.lt_irrefl]
    · have hba : b < a := Nat.lt_of_div_lt_div hgt
      have h1 : ¬ a / 256 ^ k < b / 256 ^ k := by omega
      have h2 : ¬ a / 256 ^ k = b / 256 ^ k := by omega
      simp [h1, h2]
      omega

/-- Claim C8: `StateChangeId::to_key` is the 8-byte big-endian encoding of
the `u64`, `from_key` inverts it, and byte-lexicographic order on encoded
keys coincides with numeric order on the ids. -/
theorem stateChangeId_key_order (n m : Nat) (hn : n < 2 ^ 64) (hm : m < 2 ^ 64) :
    (StateChangeId.to_key ⟨n⟩).length = 8 ∧
    StateChangeId.to_key ⟨n⟩ =
      [n / 2 ^ 56 % 256, n / 2 ^ 48 % 256, n / 2 ^ 40 % 256, n / 2 ^ 32 % 256,
        n / 2 ^ 24 % 256, n / 2 ^ 16 % 256, n / 2 ^ 8 % 256, n % 256] ∧
    StateChangeId.from_key (StateChangeId.to_key ⟨n⟩) = ⟨n⟩ ∧
    (bytesLt (StateChangeId.to_key ⟨n⟩) (StateChangeId.to_key ⟨m⟩) = true ↔ n < m) := by
  have h256 : (256 : Nat) ^ 8 = 2 ^ 64 := by norm_num
  refine ⟨toBEBytes_length 8 n, ?_, ?_, ?_⟩
  · simp only [StateChangeId.to_key, toBEBytes, List.cons.injEq, and_true]
    refine ⟨?_, ?_, ?_, ?_, ?_, ?_, ?_, ?_⟩ <;> omega
  · simp only [StateChangeId.to_key, StateChangeId.from_key, fromBEBytes]
    rw [foldl_toBEBytes 8 n 0 (by omega)]
    norm_num
  · exact bytesLt_toBEBytes 8 n m (by omega) (by omega)

/-- Claim C8, witness: the encoding laws at ids 258 and 513. -/
theorem stateChangeId_key_order_witness :
    StateChangeId.from_key (StateChangeId.to_key ⟨258⟩) = ⟨258⟩ ∧
    (bytesLt (StateChangeId.to_key ⟨258⟩) (StateChangeId.to_key ⟨513⟩) = true ↔ 258 < 513) :=
  ⟨(stateChangeId_key_order 258 513 (by norm_num) (by norm_num)).2.2.1,
    (stateChangeId_key_order 258 513 (by norm_num) (by norm_num)).2.2.2⟩

/- ## Separator-scanning lemmas -/

lemma position_eq_none (p : Nat → Bool) (l : List Nat) :
    position p l = none ↔ ∀ x ∈ l, p x = false := by
  induction l with
  | nil => simp [position]
  | cons x xs ih =>
    simp only [position]
    by_cases h : p x
    · simp [h]
    · rw [if_neg h]
      constructor
      · intro hmap y hy
        have hnone : position p xs = none := by
          cases hpos : position p xs with
          | none => rfl
          | some j =>
            rw [hpos] at hmap
            exact Option.noConfusion hmap
        rcases List.mem_cons.1 hy with hy | hy
        · subst hy
          exact Bool.eq_false_iff.2 h
        · exact (ih.1 hnone) y hy
      · intro hall
        have hnone : position p xs = none :=
          ih.2 (fun y hy => hall y (List.mem_cons.2 (Or.inr hy)))
        rw [hnone]
        rfl

lemma position_append_of_noSep (p : Nat → Bool) (a : List Nat) (x : Nat) (r : List Nat)
    (ha : ∀ y ∈ a, p y = false) (hx : p x = true) :
    position p (a ++ x :: r) = some a.length := by
  induction a with
  | nil => simp [position, hx]
  | cons y ys ih =>
    have hy : ¬ p y = true := by simp [ha y (by simp)]
    show position p (y :: (ys ++ x :: r)) = some (ys.length + 1)
    simp only [position, if_neg hy]
    rw [ih (fun z hz => ha z (by simp [hz]))]
    rfl

lemma drop_append_cons (a : List Nat) (x : Nat) (r : List Nat) :
    (a ++ x :: r).drop (a.length + 1) = r := by
  have h : a ++ x :: r = (a ++ [x]) ++ r := by simp
  rw [h, List.drop_left' (by simp)]

lemma position_some_decomp (p : Nat → Bool) (l : List Nat) (i : Nat)
    (h : position p l = some i) :
    ∃ a x r, l = a ++ x :: r ∧ a.length = i ∧ (∀ y ∈ a, p y = false) ∧ p x = true := by
  induction l generalizing i with
  | nil => exact Option.noConfusion h
  | cons y ys ih =>
    simp only [position] at h
    by_cases hy : p y
    · rw [if_pos hy] at h
      obtain rfl : 0 = i := Option.some.inj h
      exact ⟨[], y, ys, by simp, rfl, by simp, hy⟩
    · rw [if_neg hy] at h
      cases hpos : position p ys with
      | none =>
        rw [hpos] at h
        exact Option.noConfusion h
      | some j =>
        rw [hpos] at h
        have hij : j + 1 = i := Option.some.inj h
        obtain ⟨a, x, r, h1, h2, h3, h4⟩ := ih j hpos
        refine ⟨y :: a, x, r, by simp [h1], by simp [h2, ← hij], ?_, h4⟩
        intro z hz
        rcases List.mem_cons.1 hz with hz | hz
        · subst hz
          exact Bool.eq_false_iff.2 hy
        · exact h3 z hz

lemma count95_append (a b : List Nat) : count95 (a ++ b) = count95 a + count95 b := by
  induction a with
  | nil => simp [count95]
  | cons x xs ih =>
    show (if x = 95 then 1 else 0) + count95 (xs ++ b) =
      ((if x = 95 then 1 else 0) + count95 xs) + count95 b
    rw [ih]
    omega

lemma count95_eq_zero_iff (l : List Nat) : count95 l = 0 ↔ ∀ x ∈ l, x ≠ 95 := by
  induction l with
  | nil => simp [count95]
  | cons x xs ih =>
    constructor
    · intro h0 y hy
      have hx : (if x = 95 then 1 else 0) + count95 xs = 0 := h0
      by_cases h : x = 95
      · rw [if_pos h] at hx
        omega
      · rw [if_neg h] at hx
        rcases List.mem_cons.1 hy with hy | hy
        · subst hy
          exact h
        · exact (ih.1 (by omega)) y hy
    · intro hall
      have hx : x ≠ 95 := hall x (List.mem_cons.2 (Or.inl rfl))
      have h0 : count95 xs = 0 := ih.2 (fun y hy => hall y (List.mem_cons.2 (Or.inr hy)))
      show (if x = 95 then 1 else 0) + count95 xs = 0
      rw [if_neg hx, h0]

lemma drop_two_seps (a b c : List Nat) :
    (a ++ 95 :: (b ++ 95 :: c)).drop (a.length + 1 + b.length + 1) = c := by
  have h : a ++ 95 :: (b ++ 95 :: c) = (a ++ 95 :: (b ++ [95])) ++ c := by simp
  rw [h, List.drop_left' (by simp; omega)]

lemma kfek_ok (a b c : List Nat) (ha : ∀ x ∈ a, x ≠ 95) (hb : ∀ x ∈ b, x ≠ 95) :
    Task.key_from_executor_key (a ++ 95 :: (b ++ 95 :: c)) = .ok c := by
  have ha' : ∀ y ∈ a, (y == 95) = false := fun y hy => by simp [ha y hy]
  have hb' : ∀ y ∈ b, (y == 95) = false := fun y hy => by simp [hb y hy]
  simp only [Task.key_from_executor_key,
    position_append_of_noSep _ a 95 _ ha' (by simp), drop_append_cons,
    position_append_of_noSep _ b 95 _ hb' (by simp), drop_two_seps]

/-- Claim C3: parsing an executor key fails with the
`"invalid executor key"` error exactly when the input holds fewer than two
`'_'` bytes; on any input of the shape `a ++ '_' ++ b ++ '_' ++ c` with `a`
and `b` underscore-free it succeeds with exactly the suffix `c` after the
second `'_'`, verbatim, underscores in `c` included. -/
theorem key_from_executor_key_spec (input : List Nat) :
    (Task.key_from_executor_key input = .error (strBytes ("invalid executor key")) ↔
      count95 input < 2) ∧
    (∀ a b c, (∀ x ∈ a, x ≠ 95) → (∀ x ∈ b, x ≠ 95) →
      input = a ++ 95 :: (b ++ 95 :: c) → Task.key_from_executor_key input = .ok c) := by
  constructor
  · constructor
    · intro herr
      cases h1 : position (fun x => x == 95) input with
      | none =>
        have hall : ∀ x ∈ input, x ≠ 95 := by
          intro x hx
          have := (position_eq_none _ input).1 h1 x hx
          simpa using this
        have h0 : count95 input = 0 := (count95_eq_zero_iff input).2 hall
        omega
      | some p1 =>
        obtain ⟨a, x, r, hl, hlen, hfree, hx⟩ := position_some_decomp _ _ _ h1
        have hx95 : x = 95 := by simpa using hx
        subst hx95
        subst hl
        rw [← hlen] at h1
        simp only [Task.key_from_executor_key, h1, drop_append_cons] at herr
        cases h2 : position (fun x => x == 95) r with
        | none =>
          have hrfree : ∀ x ∈ r, x ≠ 95 := by
            intro x hx
            have := (position_eq_none _ r).1 h2 x hx
            simpa using this
          have hra : count95 a = 0 := (count95_eq_zero_iff a).2
            (fun y hy => by simpa using hfree y hy)
          have hrr : count95 r = 0 := (count95_eq_zero_iff r).2 hrfree
          rw [count95_append]
          show count95 a + count95 (95 :: r) < 2
          have : count95 (95 :: r) = 1 + count95 r := by
            show (if (95 : Nat) = 95 then 1 else 0) + count95 r = 1 + count95 r
            rw [if_pos rfl]
          omega
        | some p2 =>
          rw [h2] at herr
          exact Except.noConfusion herr
    · intro hcnt
      cases h1 : position (fun x => x == 95) input with
      | none =>
        simp [Task.key_from_executor_key, h1]
      | some p1 =>
        obtain ⟨a, x, r, hl, hlen, hfree, hx⟩ := position_some_decomp _ _ _ h1
        have hx95 : x = 95 := by simpa using hx
        subst hx95
        subst hl
        rw [← hlen] at h1
        have hra : count95 a = 0 := (count95_eq_zero_iff a).2
          (fun y hy => by simpa using hfree y hy)
        have hcr : count95 r = 0 := by
          rw [count95_append] at hcnt
          have : count95 (95 :: r) = 1 + count95 r := by
            show (if (95 : Nat) = 95 then 1 else 0) + count95 r = 1 + count95 r
            rw [if_pos rfl]
          omega
        have hrfree : ∀ x ∈ r, x ≠ 95 := (count95_eq_zero_iff r).1 hcr
        have h2 : position (fun x => x == 95) r = none :=
          (position_eq_none _ r).2 (fun y hy => by simp [hrfree y hy])
        simp [Task.key_from_executor_key, h1, drop_append_cons, h2]
  · intro a b c ha hb heq
    subst heq
    exact kfek_ok a b c ha hb

/-- Claim C3, witness: `"e1_1_t_x"` parses to `"t_x"` (the later underscore
is kept verbatim), and the no-underscore criterion instantiates at `"e1"`. -/
theorem key_from_executor_key_spec_witness :
    Task.key_from_executor_key (strBytes ("e1_1_t_x")) = .ok (strBytes ("t_x")) ∧
    (Task.key_from_executor_key (strBytes ("e1")) = .error (strBytes ("invalid executor key")) ↔
      count95 (strBytes ("e1")) < 2) :=
  ⟨(key_from_executor_key_spec (strBytes ("e1_1_t_x"))).2 (strBytes ("e1")) (strBytes ("1"))
      (strBytes ("t_x")) (by decide) (by decide) (by decide),
    (key_from_executor_key_spec (strBytes ("e1"))).1⟩

/- ## Digit bytes contain no separator -/

lemma digitByte_ne95 (n : Nat) (h : n < 16) : digitByte n ≠ 95 := by
  unfold digitByte
  split <;> omega

lemma digitsCore_no95 (fuel : Nat) : ∀ b n acc, 2 ≤ b → b ≤ 16 → (∀ x ∈ acc, x ≠ 95) →
    ∀ x ∈ digitsCore b fuel n acc, x ≠ 95 := by
  induction fuel with
  | zero => exact fun b n acc _ _ hacc => hacc
  | succ fuel ih =>
    intro b n acc hb2 hb16 hacc x hx
    simp only [digitsCore] at hx
    by_cases hn : n < b
    · rw [if_pos hn] at hx
      rcases List.mem_cons.1 hx with hx | hx
      · subst hx
        exact digitByte_ne95 n (by omega)
      · exact hacc x hx
    · rw [if_neg hn] at hx
      refine ih b (n / b) _ hb2 hb16 ?_ x hx
      intro y hy
      rcases List.mem_cons.1 hy with hy | hy
      · subst hy
        have hm : n % b < b := Nat.mod_lt n (by omega)
        exact digitByte_ne95 _ (by omega)
      · exact hacc y hy

lemma decBytes_no95 (n : Nat) : ∀ x ∈ decBytes n, x ≠ 95 :=
  digitsCore_no95 (n + 1) 10 n [] (by omega) (by omega) (by simp)

/-- Claim C2: whenever `make_allocation_key` produces a key for an executor
id containing no `'_'` byte, `key_from_executor_key` recovers exactly the
bytes of `Task::key`. -/
theorem allocation_key_roundtrip (t : Task) (e : ExecutorId) (h95 : (95 : Nat) ∉ e.val)
    (k : ByteStr) (hk : t.make_allocation_key e = some k) :
    Task.key_from_executor_key k = .ok t.key := by
  unfold Task.make_allocation_key at hk
  cases hd : durationSinceEpoch t.creation_time with
  | none =>
    rw [hd] at hk
    exact Option.noConfusion hk
  | some sp =>
    rcases sp with ⟨secs, nanos⟩
    rw [hd] at hk
    have hk2 : e.val ++ 95 :: (decBytes (secs * 1000000000 + nanos) ++ 95 :: t.key) = k :=
      Option.some.inj hk
    rw [← hk2]
    exact kfek_ok _ _ _ (fun x hx hx95 => h95 (hx95 ▸ hx)) (fun x hx => decBytes_no95 _ x hx)

/-- A concrete task used to instantiate the allocation-key theorems. -/
def task0 : Task :=
  ⟨strBytes ("tid1"), strBytes ("ns1"), strBytes ("f1"), strBytes ("g1"), strBytes ("inv1"),
    strBytes ("in1"), .Unknown, 0⟩

/-- A concrete executor id with no underscore. -/
def ex0 : ExecutorId := ⟨strBytes ("ex1")⟩

/-- Claim C2, witness: the concrete allocation key of `task0` on executor
`ex1` parses back to `task0`'s storage key. -/
theorem allocation_key_roundtrip_witness :
    Task.key_from_executor_key (strBytes ("ex1_0_ns1_g1_inv1_f1_tid1")) = .ok task0.key :=
  allocation_key_roundtrip task0 ex0 (by decide)
    (strBytes ("ex1_0_ns1_g1_inv1_f1_tid1")) (by decide)

/-- Claim C9 (amended): for every task whose `creation_time` is at or after
the Unix epoch, `make_allocation_key` totally computes the timestamp
`secs * 1e9 + subsec_nanos` and returns
`"{executor_id}_{nsecs}_{task_key}"`; for a pre-epoch `creation_time` the
`.unwrap()` in the source panics (modelled as `none`). -/
theorem allocation_key_total (t : Task) (e : ExecutorId) (h : 0 ≤ t.creation_time) :
    t.make_allocation_key e =
      some (e.val ++ 95 :: (decBytes (t.creation_time.toNat / 1000000000 * 1000000000 +
        t.creation_time.toNat % 1000000000) ++ 95 :: t.key)) := by
  unfold Task.make_allocation_key durationSinceEpoch
  rw [if_pos h]

/-- Claim C9, witness: the epoch-time task builds its allocation key. -/
theorem allocation_key_total_witness :
    task0.make_allocation_key ex0 =
      some (ex0.val ++ 95 :: (decBytes (task0.creation_time.toNat / 1000000000 * 1000000000 +
        task0.creation_time.toNat % 1000000000) ++ 95 :: task0.key)) :=
  allocation_key_total task0 ex0 (by decide)

/-- A task whose `creation_time` lies one nanosecond before the Unix epoch —
a value a `SystemTime` may hold. -/
def taskPre : Task :=
  ⟨strBytes ("tid1"), strBytes ("ns1"), strBytes ("f1"), strBytes ("g1"), strBytes ("inv1"),
    strBytes ("in1"), .Unknown, -1⟩

/-- Claim C9, counterexample: on a pre-epoch `creation_time` the
`duration_since(UNIX_EPOCH).unwrap()` inside `make_allocation_key` fails
(the model returns `none`, the process panics), so `make_allocation_key`
does not return an allocation key for every `SystemTime`. -/
theorem allocation_key_panics_before_epoch :
    taskPre.make_allocation_key ex0 = none := by
  decide

end DataModel
